import Mathlib

/-!
Verification development for the transaction/address core of python-bitcointx.

Bytes are modelled as `List Nat` with each entry below 256.  The transaction
model, its wire codec, the mutability discipline and the legacy
signature-hash edge case are modelled from the specification, since
`bitcointx/core/__init__.py` and `bitcointx/core/script.py` are not among the
shown sources; the base58 layer (`bitcointx/base58.py`) and the address
recovery logic (`bitcointx/wallet.py`) are translated from the source files
directly, with the external double-SHA256 / Hash160 oracles kept abstract as
function parameters.
-/

namespace Bitcointx

/-! ### Byte codec primitives (modelled from the spec, section 4.1) -/

/-- Sane upper bound on declared byte-vector lengths, guarding against
memory exhaustion from hostile input. -/
def MAX_SIZE : Nat := 0x02000000

/-- Little-endian fixed-width serialization of `n` into `w` bytes. -/
def serN : Nat → Nat → List Nat
  | 0, _ => []
  | w + 1, n => n % 256 :: serN w (n / 256)

/-- Value of a little-endian byte list. -/
def leVal : List Nat → Nat
  | [] => 0
  | b :: r => b + 256 * leVal r

/-- Read exactly `w` bytes from the front of the buffer. -/
def readN (w : Nat) (l : List Nat) : Option (List Nat × List Nat) :=
  if w ≤ l.length then some (l.take w, l.drop w) else none

/-- Read a fixed-width little-endian unsigned integer. -/
def readFixed (w : Nat) (l : List Nat) : Option (Nat × List Nat) :=
  (readN w l).map fun p => (leVal p.1, p.2)

/-- CompactSize variable-length integer serialization: one byte below 0xfd,
otherwise a marker byte followed by a 2/4/8-byte little-endian value. -/
def serCompact (n : Nat) : List Nat :=
  if n < 0xfd then [n]
  else if n < 0x10000 then 0xfd :: serN 2 n
  else if n < 0x100000000 then 0xfe :: serN 4 n
  else 0xff :: serN 8 n

/-- CompactSize decoding; non-minimal (non-canonical) encodings fail. -/
def readCompact : List Nat → Option (Nat × List Nat)
  | [] => none
  | b :: r =>
    if b < 0xfd then some (b, r)
    else if b = 0xfd then
      (readFixed 2 r).bind fun p => if p.1 < 0xfd then none else some p
    else if b = 0xfe then
      (readFixed 4 r).bind fun p => if p.1 < 0x10000 then none else some p
    else
      (readFixed 8 r).bind fun p => if p.1 < 0x100000000 then none else some p

/-- Length-prefixed byte vector serialization. -/
def serVarBytes (b : List Nat) : List Nat := serCompact b.length ++ b

/-- Length-prefixed byte vector decoding; a declared length above `MAX_SIZE`
is rejected. -/
def readVarBytes (l : List Nat) : Option (List Nat × List Nat) :=
  (readCompact l).bind fun p => if MAX_SIZE < p.1 then none else readN p.1 p.2

/-! ### Transaction data model (modelled from the spec, section 3) -/

/-- Outpoint: 32-byte hash (in serialized byte order) and a 32-bit index. -/
structure COutPoint where
  hash : List Nat
  n : Nat
deriving DecidableEq

/-- Transaction input. -/
structure CTxIn where
  prevout : COutPoint
  scriptSig : List Nat
  nSequence : Nat
deriving DecidableEq

/-- Transaction output. -/
structure CTxOut where
  nValue : Nat
  scriptPubKey : List Nat
deriving DecidableEq

/-- A transaction: version, inputs, outputs, per-input witness stacks
(positionally aligned with the inputs) and lock time. -/
structure CTransaction where
  nVersion : Nat
  vin : List CTxIn
  vout : List CTxOut
  wit : List (List (List Nat))
  nLockTime : Nat
deriving DecidableEq

/-- A transaction carries witness data iff some per-input stack is non-empty
(an all-empty witness set serializes to nothing). -/
def CTransaction.hasWitness (t : CTransaction) : Bool :=
  !(t.wit.all fun s => s.isEmpty)

/-! ### Transaction serialization (modelled from the spec, section 4.3) -/

/-- Serialize an outpoint: 32-byte hash then 4-byte little-endian index. -/
def serOutPoint (o : COutPoint) : List Nat := o.hash ++ serN 4 o.n

/-- Serialize an input: outpoint, length-prefixed script, 4-byte sequence. -/
def serTxIn (i : CTxIn) : List Nat :=
  serOutPoint i.prevout ++ serVarBytes i.scriptSig ++ serN 4 i.nSequence

/-- Serialize an output: 8-byte little-endian value, length-prefixed script. -/
def serTxOut (o : CTxOut) : List Nat :=
  serN 8 o.nValue ++ serVarBytes o.scriptPubKey

/-- Serialize a counted vector: CompactSize count then the elements. -/
def serVec {α : Type} (f : α → List Nat) (xs : List α) : List Nat :=
  serCompact xs.length ++ (xs.map f).flatten

/-- Serialize one input's witness stack: item count then length-prefixed
items. -/
def serWitStack (s : List (List Nat)) : List Nat := serVec serVarBytes s

/-- Modelled from the spec: transaction wire serialization
(`CTransaction.serialize`, not among the shown sources).  Fixed order:
version; marker 0x00 and flag 0x01 when witness data is present; inputs;
outputs; per-input witness stacks when present; lock time last.  With
`includeWitness = false` the legacy (witness-stripped) form is produced. -/
def serTxWith (includeWitness : Bool) (t : CTransaction) : List Nat :=
  serN 4 t.nVersion ++
  (if includeWitness && t.hasWitness then [0, 1] else []) ++
  serVec serTxIn t.vin ++
  serVec serTxOut t.vout ++
  (if includeWitness && t.hasWitness then (t.wit.map serWitStack).flatten else []) ++
  serN 4 t.nLockTime

/-- Full (witness-including) transaction serialization. -/
def serTx (t : CTransaction) : List Nat := serTxWith true t

/-! ### Transaction deserialization (modelled from the spec, section 4.3) -/

/-- Read an outpoint. -/
def readOutPoint (l : List Nat) : Option (COutPoint × List Nat) :=
  (readN 32 l).bind fun p =>
    (readFixed 4 p.2).map fun q => (⟨p.1, q.1⟩, q.2)

/-- Read a transaction input. -/
def readTxIn (l : List Nat) : Option (CTxIn × List Nat) :=
  (readOutPoint l).bind fun p =>
    (readVarBytes p.2).bind fun q =>
      (readFixed 4 q.2).map fun s => (⟨p.1, q.1, s.1⟩, s.2)

/-- Read a transaction output. -/
def readTxOut (l : List Nat) : Option (CTxOut × List Nat) :=
  (readFixed 8 l).bind fun p =>
    (readVarBytes p.2).map fun q => (⟨p.1, q.1⟩, q.2)

/-- Read exactly `n` items with the element reader `p`. -/
def readCount {α : Type} (p : List Nat → Option (α × List Nat)) :
    Nat → List Nat → Option (List α × List Nat)
  | 0, l => some ([], l)
  | n + 1, l =>
    (p l).bind fun a =>
      (readCount p n a.2).map fun rest => (a.1 :: rest.1, rest.2)

/-- Read a counted vector: CompactSize count then that many elements. -/
def readVec {α : Type} (p : List Nat → Option (α × List Nat))
    (l : List Nat) : Option (List α × List Nat) :=
  (readCompact l).bind fun n => readCount p n.1 n.2

/-- Read one input's witness stack. -/
def readWitStack (l : List Nat) : Option (List (List Nat) × List Nat) :=
  readVec readVarBytes l

/-- Legacy (witness-free) transaction body; the witness field is filled with
one empty stack per input. -/
def parseLegacyBody (v : Nat) (l : List Nat) : Option (CTransaction × List Nat) :=
  (readVec readTxIn l).bind fun i =>
    (readVec readTxOut i.2).bind fun o =>
      (readFixed 4 o.2).map fun lt =>
        (⟨v, i.1, o.1, List.replicate i.1.length [], lt.1⟩, lt.2)

/-- Witness transaction body: inputs, outputs, one witness stack per input,
lock time.  A witness section in which every stack is empty is a format
error (superfluous witness marker). -/
def parseWitnessBody (v : Nat) (l : List Nat) : Option (CTransaction × List Nat) :=
  (readVec readTxIn l).bind fun i =>
    (readVec readTxOut i.2).bind fun o =>
      (readCount readWitStack i.1.length o.2).bind fun w =>
        if w.1.all (fun s => s.isEmpty) then none
        else
          (readFixed 4 w.2).map fun lt =>
            (⟨v, i.1, o.1, w.1, lt.1⟩, lt.2)

/-- Modelled from the spec: transaction deserialization
(`CTransaction.deserialize`, not among the shown sources).  After the
version, the marker/flag pair 0x00 0x01 is peeked to decide whether a
witness section is expected. -/
def parseTx (b : List Nat) : Option (CTransaction × List Nat) :=
  (readFixed 4 b).bind fun v =>
    if v.2.take 2 = [0, 1] then parseWitnessBody v.1 (v.2.drop 2)
    else parseLegacyBody v.1 v.2

/-- Deserialize a transaction from a byte buffer. -/
def deserializeTx (b : List Nat) : Option CTransaction :=
  (parseTx b).map fun p => p.1

/-! ### Well-formedness of a transaction value -/

/-- Field ranges of a well-formed outpoint. -/
def wfOutPoint (o : COutPoint) : Prop :=
  o.hash.length = 32 ∧ o.n < 2 ^ 32

/-- Field ranges of a well-formed input. -/
def wfTxIn (i : CTxIn) : Prop :=
  wfOutPoint i.prevout ∧ i.scriptSig.length ≤ MAX_SIZE ∧ i.nSequence < 2 ^ 32

/-- Field ranges of a well-formed output. -/
def wfTxOut (o : CTxOut) : Prop :=
  o.nValue < 2 ^ 64 ∧ o.scriptPubKey.length ≤ MAX_SIZE

/-- Field ranges of a well-formed witness stack. -/
def wfWitStack (s : List (List Nat)) : Prop :=
  s.length < 2 ^ 64 ∧ ∀ x ∈ s, x.length ≤ MAX_SIZE

/-- A valid transaction value: bounded fields, at least one input, and a
witness sequence positionally aligned with the inputs. -/
def CTransaction.wf (t : CTransaction) : Prop :=
  t.nVersion < 2 ^ 32 ∧ t.nLockTime < 2 ^ 32 ∧ t.vin ≠ [] ∧
  t.wit.length = t.vin.length ∧
  t.vin.length < 2 ^ 64 ∧ t.vout.length < 2 ^ 64 ∧
  (∀ i ∈ t.vin, wfTxIn i) ∧ (∀ o ∈ t.vout, wfTxOut o) ∧
  (∀ s ∈ t.wit, wfWitStack s)

instance (o : COutPoint) : Decidable (wfOutPoint o) := by
  unfold wfOutPoint; infer_instance

instance (i : CTxIn) : Decidable (wfTxIn i) := by
  unfold wfTxIn; infer_instance

instance (o : CTxOut) : Decidable (wfTxOut o) := by
  unfold wfTxOut; infer_instance

instance (s : List (List Nat)) : Decidable (wfWitStack s) := by
  unfold wfWitStack; infer_instance

instance (t : CTransaction) : Decidable t.wf := by
  unfold CTransaction.wf; infer_instance

end Bitcointx

namespace Bitcointx

/-! ### Virtual size (modelled from the spec, sections 4.3 and 8) -/

/-- Modelled from the spec: `CTransaction.get_virtual_size` (not among the
shown sources).  The virtual size is the ceiling of
(3 x legacy size + total size) / 4, where the legacy size excludes
witness data and the total size includes it. -/
def CTransaction.get_virtual_size (t : CTransaction) : Nat :=
  (3 * (serTxWith false t).length + (serTx t).length + 3) / 4

/-! ### Null outpoints and coinbase (modelled from the spec, section 3) -/

/-- Modelled from the spec: `COutPoint.is_null` (not among the shown
sources) — the null outpoint has an all-zero hash and index 0xffffffff. -/
def COutPoint.is_null (o : COutPoint) : Bool :=
  decide (o.hash = List.replicate 32 0) && decide (o.n = 0xffffffff)

/-- Modelled from the spec: `CTransaction.is_coinbase` (not among the shown
sources) — coinbase iff exactly one input whose prevout is null. -/
def CTransaction.is_coinbase (t : CTransaction) : Bool :=
  match t.vin with
  | [i] => i.prevout.is_null
  | _ => false

/-! ### Script tokens (modelled from the spec, sections 3 and 4.2) -/

def OP_PUSHDATA1 : Nat := 0x4c
def OP_PUSHDATA2 : Nat := 0x4d
def OP_PUSHDATA4 : Nat := 0x4e
def OP_DUP : Nat := 0x76
def OP_HASH160 : Nat := 0xa9
def OP_EQUALVERIFY : Nat := 0x88
def OP_CHECKSIG : Nat := 0xac
def OP_CODESEPARATOR : Nat := 0xab

/-- A script token: a data push (carrying the pushed bytes) or a non-push
opcode byte. -/
inductive ScriptTok where
  | pushTok : List Nat → ScriptTok
  | opTok : Nat → ScriptTok
deriving DecidableEq

/-- Fuelled script tokenizer.  Opcodes 0x00-0x4b push that many immediate
bytes; 0x4c/0x4d/0x4e carry a 1/2/4-byte little-endian length; every other
byte is a plain opcode.  Running out of bytes mid-push fails (invalid
script). -/
def tokenizeFuel : Nat → List Nat → Option (List ScriptTok)
  | _, [] => some []
  | 0, _ :: _ => none
  | fuel + 1, b :: r =>
    if b ≤ 75 then
      if r.length < b then none
      else (tokenizeFuel fuel (r.drop b)).map fun ts => ScriptTok.pushTok (r.take b) :: ts
    else if b = OP_PUSHDATA1 then
      if r.length < 1 then none
      else
        let n := leVal (r.take 1)
        if (r.drop 1).length < n then none
        else (tokenizeFuel fuel ((r.drop 1).drop n)).map fun ts =>
          ScriptTok.pushTok ((r.drop 1).take n) :: ts
    else if b = OP_PUSHDATA2 then
      if r.length < 2 then none
      else
        let n := leVal (r.take 2)
        if (r.drop 2).length < n then none
        else (tokenizeFuel fuel ((r.drop 2).drop n)).map fun ts =>
          ScriptTok.pushTok ((r.drop 2).take n) :: ts
    else if b = OP_PUSHDATA4 then
      if r.length < 4 then none
      else
        let n := leVal (r.take 4)
        if (r.drop 4).length < n then none
        else (tokenizeFuel fuel ((r.drop 4).drop n)).map fun ts =>
          ScriptTok.pushTok ((r.drop 4).take n) :: ts
    else (tokenizeFuel fuel r).map fun ts => ScriptTok.opTok b :: ts

/-- Modelled from the spec (section 4.2): total script tokenization
(`CScript.raw_iter`, not among the shown sources).  The list length is
always enough fuel. -/
def tokenizeScript (l : List Nat) : Option (List ScriptTok) :=
  tokenizeFuel l.length l

/-- Canonical minimal push-data encoding
(`CScriptOp.encode_op_pushdata`, not among the shown sources). -/
def encodePushData (d : List Nat) : List Nat :=
  if d.length < 0x4c then d.length :: d
  else if d.length ≤ 0xff then OP_PUSHDATA1 :: d.length :: d
  else if d.length ≤ 0xffff then OP_PUSHDATA2 :: (serN 2 d.length ++ d)
  else OP_PUSHDATA4 :: (serN 4 d.length ++ d)

/-- Serialize one token, pushes in canonical minimal encoding. -/
def serTok : ScriptTok → List Nat
  | .pushTok d => encodePushData d
  | .opTok b => [b]

/-- Re-serialize a token sequence with canonical minimal pushes. -/
def serToks (ts : List ScriptTok) : List Nat := (ts.map serTok).flatten

/-- Canonicalize a script: parse it into tokens and re-serialize with
minimal pushes; `none` when the script is syntactically invalid. -/
def canonicalizeScript (s : List Nat) : Option (List Nat) :=
  (tokenizeScript s).map serToks

/-! ### Legacy signature hash (modelled from the spec, section 4.4) -/

def SIGHASH_ALL : Nat := 1
def SIGHASH_NONE : Nat := 2
def SIGHASH_SINGLE : Nat := 3
def SIGHASH_ANYONECANPAY : Nat := 0x80

/-- The fixed sentinel digest of the SINGLE-with-missing-output quirk:
the byte 0x01 followed by 31 zero bytes. -/
def HASH_ONE : List Nat := 1 :: List.replicate 31 0

/-- Consensus-mandated removal of OP_CODESEPARATOR occurrences from the
claimed locking script before hashing. -/
def removeCodeSeps (s : List Nat) : List Nat :=
  match tokenizeScript s with
  | some ts => serToks (ts.filter fun t => t ≠ ScriptTok.opTok OP_CODESEPARATOR)
  | none => s

/-- An output blanked for the SIGHASH_SINGLE transform: value -1
(all-ones 64-bit) and an empty script. -/
def blankedOut : CTxOut := ⟨2 ^ 64 - 1, []⟩

/-- Modelled from the spec (section 4.4): the modified transaction copy the
legacy signature hash serializes.  Unlocking scripts of all inputs are
blanked except the target, which receives the claimed locking script with
OP_CODESEPARATOR occurrences removed; the output set is truncated/zeroed
and the other inputs' sequence numbers zeroed according to the base type;
ANYONECANPAY keeps only the target input.  Witness data is excluded. -/
def sighashTxCopy (script : List Nat) (tx : CTransaction) (inIdx : Nat)
    (hashtype : Nat) : CTransaction :=
  let cleaned := removeCodeSeps script
  let vin1 := tx.vin.mapIdx fun j i =>
    if j = inIdx then ⟨i.prevout, cleaned, i.nSequence⟩
    else ⟨i.prevout, [],
      if hashtype % 32 = SIGHASH_NONE ∨ hashtype % 32 = SIGHASH_SINGLE then 0
      else i.nSequence⟩
  let vout1 :=
    if hashtype % 32 = SIGHASH_NONE then []
    else if hashtype % 32 = SIGHASH_SINGLE then
      (tx.vout.take (inIdx + 1)).mapIdx fun j o => if j < inIdx then blankedOut else o
    else tx.vout
  let vin2 :=
    if 0x80 ≤ hashtype % 256 then [vin1.getD inIdx ⟨⟨[], 0⟩, [], 0⟩] else vin1
  ⟨tx.nVersion, vin2, vout1, List.replicate vin2.length [], tx.nLockTime⟩

/-- Modelled from the spec (section 4.4): the legacy signature-hash digest.
`H` is the external double-SHA256 oracle.  When the base type is SINGLE and
there is no corresponding output, the digest is the fixed sentinel
`HASH_ONE`, not a hash; otherwise the modified transaction plus the 4-byte
hash type is double-hashed. -/
def RawSignatureHash (H : List Nat → List Nat) (script : List Nat)
    (tx : CTransaction) (inIdx : Nat) (hashtype : Nat) : List Nat :=
  if hashtype % 32 = SIGHASH_SINGLE ∧ tx.vout.length ≤ inIdx then HASH_ONE
  else H (serTx (sighashTxCopy script tx inIdx hashtype) ++ serN 4 hashtype)

/-! ### Concrete transaction from the test suite (for the C2 computation) -/

/-- The 32-byte prevout hash of the known 235-byte legacy transaction. -/
def tx235PrevHash : List Nat :=
  [234, 184, 86, 181, 196, 222, 129, 81, 28, 237, 171, 145, 102, 48, 207, 10,
   250, 56, 234, 78, 216, 224, 232, 140, 137, 144, 237, 168, 135, 115, 205, 71]

/-- The scriptSig of the known 235-byte legacy transaction's input. -/
def tx235ScriptSig : List Nat :=
  [72, 48, 69, 2, 33, 0, 143, 158, 168, 59, 143, 74, 45, 35, 176, 122,
   2, 242, 81, 9, 170, 80, 138, 120, 184, 86, 67, 176, 161, 241, 200, 160,
   140, 72, 211, 47, 83, 230, 2, 32, 83, 231, 2, 138, 88, 92, 85, 186,
   83, 137, 94, 154, 142, 248, 222, 248, 107, 29, 16, 158, 192, 87, 64, 15,
   77, 95, 21, 47, 91, 243, 2, 214, 1, 33, 2, 11, 207, 16, 25, 48,
   221, 84, 226, 35, 68, 212, 239, 6, 5, 97, 254, 104, 244, 36, 38, 254,
   1, 249, 44, 105, 75, 209, 25, 243, 8, 212, 78]

/-- First output of the known 235-byte legacy transaction. -/
def tx235Out0 : CTxOut :=
  ⟨70902544766,
   [118, 169, 20, 241, 239, 107, 63, 20, 198, 156, 175, 215, 91, 58, 92, 210,
   16, 17, 20, 187, 65, 29, 80, 136, 172]⟩

/-- Second output of the known 235-byte legacy transaction. -/
def tx235Out1 : CTxOut :=
  ⟨19096425234,
   [0, 32, 31, 130, 143, 1, 201, 136, 169, 146, 239, 158, 251, 76, 119, 168,
   227, 96, 125, 240, 249, 126, 219, 195, 2, 159, 233, 93, 98, 246, 177, 196,
   54, 187]⟩

/-- The known 235-byte legacy (witness-free) transaction from the test
suite, transcribed field by field from its hex serialization. -/
def tx235 : CTransaction :=
  ⟨2, [⟨⟨tx235PrevHash, 1⟩, tx235ScriptSig, 4294967295⟩],
   [tx235Out0, tx235Out1], [[]], 0⟩

/-- The serialized bytes of the known 235-byte legacy transaction. -/
def tx235Bytes : List Nat :=
  [2, 0, 0, 0, 1, 234, 184, 86, 181, 196, 222, 129, 81, 28, 237, 171,
   145, 102, 48, 207, 10, 250, 56, 234, 78, 216, 224, 232, 140, 137, 144, 237,
   168, 135, 115, 205, 71, 1, 0, 0, 0, 107, 72, 48, 69, 2, 33, 0,
   143, 158, 168, 59, 143, 74, 45, 35, 176, 122, 2, 242, 81, 9, 170, 80,
   138, 120, 184, 86, 67, 176, 161, 241, 200, 160, 140, 72, 211, 47, 83, 230,
   2, 32, 83, 231, 2, 138, 88, 92, 85, 186, 83, 137, 94, 154, 142, 248,
   222, 248, 107, 29, 16, 158, 192, 87, 64, 15, 77, 95, 21, 47, 91, 243,
   2, 214, 1, 33, 2, 11, 207, 16, 25, 48, 221, 84, 226, 35, 68, 212,
   239, 6, 5, 97, 254, 104, 244, 36, 38, 254, 1, 249, 44, 105, 75, 209,
   25, 243, 8, 212, 78, 255, 255, 255, 255, 2, 126, 249, 30, 130, 16, 0,
   0, 0, 25, 118, 169, 20, 241, 239, 107, 63, 20, 198, 156, 175, 215, 91,
   58, 92, 210, 16, 17, 20, 187, 65, 29, 80, 136, 172, 18, 83, 60, 114,
   4, 0, 0, 0, 34, 0, 32, 31, 130, 143, 1, 201, 136, 169, 146, 239,
   158, 251, 76, 119, 168, 227, 96, 125, 240, 249, 126, 219, 195, 2, 159, 233,
   93, 98, 246, 177, 196, 54, 187, 0, 0, 0, 0]

/-- `tx235` with 260 copies of its first output appended to its outputs,
as in the virtual-size test. -/
def tx235Appended : CTransaction :=
  ⟨tx235.nVersion, tx235.vin, tx235.vout ++ List.replicate 260 tx235Out0,
   tx235.wit, tx235.nLockTime⟩

end Bitcointx

namespace Bitcointx

/-! ### Dual mutable/immutable forms (modelled from the spec, section 3) -/

/-- The two representation forms of every composite transaction type. -/
inductive Form where
  | mutF : Form
  | immutF : Form
deriving DecidableEq

/-- A form-tagged outpoint. -/
structure FOutPoint where
  form : Form
  hash : List Nat
  n : Nat
deriving DecidableEq

/-- A form-tagged transaction input. -/
structure FTxIn where
  form : Form
  prevout : FOutPoint
  scriptSig : List Nat
  nSequence : Nat
deriving DecidableEq

/-- A form-tagged transaction output. -/
structure FTxOut where
  form : Form
  nValue : Nat
  scriptPubKey : List Nat
deriving DecidableEq

/-- A form-tagged per-input witness. -/
structure FTxInWitness where
  form : Form
  stack : List (List Nat)
deriving DecidableEq

/-- A form-tagged transaction witness. -/
structure FTxWitness where
  form : Form
  vtxinwit : List FTxInWitness
deriving DecidableEq

/-- A form-tagged transaction. -/
structure FTransaction where
  form : Form
  nVersion : Nat
  vin : List FTxIn
  vout : List FTxOut
  wit : FTxWitness
  nLockTime : Nat
deriving DecidableEq

def FOutPoint.is_mutable (o : FOutPoint) : Bool := o.form = Form.mutF
def FOutPoint.is_immutable (o : FOutPoint) : Bool := o.form = Form.immutF
def FTxIn.is_mutable (i : FTxIn) : Bool := i.form = Form.mutF
def FTxIn.is_immutable (i : FTxIn) : Bool := i.form = Form.immutF
def FTxOut.is_mutable (o : FTxOut) : Bool := o.form = Form.mutF
def FTxOut.is_immutable (o : FTxOut) : Bool := o.form = Form.immutF
def FTxInWitness.is_mutable (w : FTxInWitness) : Bool := w.form = Form.mutF
def FTxInWitness.is_immutable (w : FTxInWitness) : Bool := w.form = Form.immutF
def FTxWitness.is_mutable (w : FTxWitness) : Bool := w.form = Form.mutF
def FTxWitness.is_immutable (w : FTxWitness) : Bool := w.form = Form.immutF
def FTransaction.is_mutable (t : FTransaction) : Bool := t.form = Form.mutF
def FTransaction.is_immutable (t : FTransaction) : Bool := t.form = Form.immutF

/-- Convert an outpoint to the given form. -/
def FOutPoint.toForm (f : Form) (o : FOutPoint) : FOutPoint := ⟨f, o.hash, o.n⟩

/-- Convert an input to the given form, transitively converting its
outpoint. -/
def FTxIn.toForm (f : Form) (i : FTxIn) : FTxIn :=
  ⟨f, i.prevout.toForm f, i.scriptSig, i.nSequence⟩

/-- Convert an output to the given form. -/
def FTxOut.toForm (f : Form) (o : FTxOut) : FTxOut := ⟨f, o.nValue, o.scriptPubKey⟩

/-- Convert a per-input witness to the given form. -/
def FTxInWitness.toForm (f : Form) (w : FTxInWitness) : FTxInWitness := ⟨f, w.stack⟩

/-- Convert a witness to the given form, transitively converting each
per-input witness. -/
def FTxWitness.toForm (f : Form) (w : FTxWitness) : FTxWitness :=
  ⟨f, w.vtxinwit.map (FTxInWitness.toForm f)⟩

/-- Modelled from the spec (section 3): transaction construction from parts
(the `CTransaction` / `CMutableTransaction` initializers, not among the
shown sources).  Construction transitively converts every nested part to
the constructed form. -/
def FTransaction.construct (f : Form) (nVersion : Nat) (vin : List FTxIn)
    (vout : List FTxOut) (wit : FTxWitness) (nLockTime : Nat) : FTransaction :=
  ⟨f, nVersion, vin.map (FTxIn.toForm f), vout.map (FTxOut.toForm f),
   wit.toForm f, nLockTime⟩

/-- Lift a plain (codec-level) transaction into the form-tagged model,
tagging every nested part with the given form. -/
def liftTx (f : Form) (t : CTransaction) : FTransaction :=
  ⟨f, t.nVersion,
   t.vin.map fun i => ⟨f, ⟨f, i.prevout.hash, i.prevout.n⟩, i.scriptSig, i.nSequence⟩,
   t.vout.map fun o => ⟨f, o.nValue, o.scriptPubKey⟩,
   ⟨f, t.wit.map fun s => ⟨f, s⟩⟩,
   t.nLockTime⟩

/-- Modelled from the spec: deserializing with either class produces a
transaction of that form, all of whose parts are of that form. -/
def FTransaction.deserializeF (f : Form) (b : List Nat) : Option FTransaction :=
  (deserializeTx b).map (liftTx f)

/-- Every nested part of the transaction carries the given form. -/
def FTransaction.partsHaveForm (t : FTransaction) (f : Form) : Prop :=
  (∀ i ∈ t.vin, i.form = f ∧ i.prevout.form = f) ∧
  (∀ o ∈ t.vout, o.form = f) ∧
  t.wit.form = f ∧ (∀ w ∈ t.wit.vtxinwit, w.form = f)

instance (t : FTransaction) (f : Form) : Decidable (t.partsHaveForm f) := by
  unfold FTransaction.partsHaveForm; infer_instance

/-- Every nested part of the transaction satisfies `is_immutable`. -/
def FTransaction.partsImmutable (t : FTransaction) : Prop :=
  (∀ i ∈ t.vin, i.is_immutable = true ∧ i.prevout.is_immutable = true) ∧
  (∀ o ∈ t.vout, o.is_immutable = true) ∧
  t.wit.is_immutable = true ∧ (∀ w ∈ t.wit.vtxinwit, w.is_immutable = true)

/-- Every nested part of the transaction satisfies `is_mutable`. -/
def FTransaction.partsMutable (t : FTransaction) : Prop :=
  (∀ i ∈ t.vin, i.is_mutable = true ∧ i.prevout.is_mutable = true) ∧
  (∀ o ∈ t.vout, o.is_mutable = true) ∧
  t.wit.is_mutable = true ∧ (∀ w ∈ t.wit.vtxinwit, w.is_mutable = true)

instance (t : FTransaction) : Decidable t.partsImmutable := by
  unfold FTransaction.partsImmutable; infer_instance

instance (t : FTransaction) : Decidable t.partsMutable := by
  unfold FTransaction.partsMutable; infer_instance

/-! ### Sequence-aliasing model for freeze/thaw (modelled from the spec,
sections 3 and 8).  Mutable input/output sequences live in an explicit
heap of cells so that sharing between a transaction and its converted
copy is observable. -/

/-- The heap of input-sequence and output-sequence cells. -/
structure Heap where
  vins : List (List CTxIn)
  vouts : List (List CTxOut)
deriving DecidableEq

/-- A transaction whose input/output sequences are heap references. -/
structure HTransaction where
  form : Form
  nVersion : Nat
  vinRef : Nat
  voutRef : Nat
  wit : List (List (List Nat))
  nLockTime : Nat
deriving DecidableEq

/-- The references of a transaction are live cells of the heap. -/
def HTransaction.validIn (t : HTransaction) (h : Heap) : Prop :=
  t.vinRef < h.vins.length ∧ t.voutRef < h.vouts.length

instance (t : HTransaction) (h : Heap) : Decidable (t.validIn h) := by
  unfold HTransaction.validIn; infer_instance

/-- Read the codec-level value of a heap transaction. -/
def readTxH (h : Heap) (t : HTransaction) : CTransaction :=
  ⟨t.nVersion, h.vins.getD t.vinRef [], h.vouts.getD t.voutRef [],
   t.wit, t.nLockTime⟩

/-- Modelled from the spec (section 3): a deep, form-converting copy.  The
copy's sequences are fresh cells holding copies of the source's sequences;
no internal sequence of the source is aliased. -/
def copyTxH (f : Form) (h : Heap) (t : HTransaction) : HTransaction × Heap :=
  (⟨f, t.nVersion, h.vins.length, h.vouts.length, t.wit, t.nLockTime⟩,
   ⟨h.vins ++ [h.vins.getD t.vinRef []], h.vouts ++ [h.vouts.getD t.voutRef []]⟩)

/-- `to_mutable`: deep copy into the mutable form. -/
def to_mutableH (h : Heap) (t : HTransaction) : HTransaction × Heap :=
  copyTxH Form.mutF h t

/-- `to_immutable`: deep copy into the immutable form. -/
def to_immutableH (h : Heap) (t : HTransaction) : HTransaction × Heap :=
  copyTxH Form.immutF h t

/-- Overwrite an input-sequence cell (in-place mutation of a mutable
transaction's input sequence, e.g. appending an input). -/
def writeVins (h : Heap) (r : Nat) (v : List CTxIn) : Heap :=
  ⟨h.vins.set r v, h.vouts⟩

/-- Overwrite an output-sequence cell. -/
def writeVouts (h : Heap) (r : Nat) (v : List CTxOut) : Heap :=
  ⟨h.vins, h.vouts.set r v⟩

/-! ### Hash caching model (modelled from the spec, sections 3 and 8).
An immutable structure computes its identifying hash once at construction
and caches it; a mutable structure recomputes on every request and never
caches. -/

/-- An outpoint together with its (optional) construction-time hash
cache.  `GetHash` is `H (serOutPoint ...)` where `H` is the external
double-SHA256 oracle. -/
structure HashedOutPoint where
  op : COutPoint
  cache : Option (List Nat)
deriving DecidableEq

/-- Immutable construction: the hash is computed once and cached. -/
def mkImmutableOutPoint (H : List Nat → List Nat) (o : COutPoint) :
    HashedOutPoint := ⟨o, some (H (serOutPoint o))⟩

/-- Mutable construction: no cache, ever. -/
def mkMutableOutPoint (o : COutPoint) : HashedOutPoint := ⟨o, none⟩

/-- One `GetHash` request: an immutable structure returns its cached value;
a mutable structure recomputes from its current fields and does not store
the result.  The post-request state is returned alongside the digest. -/
def HashedOutPoint.GetHash (H : List Nat → List Nat) (x : HashedOutPoint) :
    List Nat × HashedOutPoint :=
  match x.cache with
  | some c => (c, x)
  | none => (H (serOutPoint x.op), x)

/-- In-place update of the index field of a mutable outpoint. -/
def HashedOutPoint.setN (x : HashedOutPoint) (n1 : Nat) : HashedOutPoint :=
  ⟨⟨x.op.hash, n1⟩, x.cache⟩

/-- In-place update of the hash field of a mutable outpoint. -/
def HashedOutPoint.setHashBytes (x : HashedOutPoint) (h1 : List Nat) :
    HashedOutPoint := ⟨⟨h1, x.op.n⟩, x.cache⟩

/-- The digest returned by the k-th repeated `GetHash` request. -/
def nthHashOutPoint (H : List Nat → List Nat) : HashedOutPoint → Nat → List Nat
  | x, 0 => (x.GetHash H).1
  | x, k + 1 => nthHashOutPoint H (x.GetHash H).2 k

/-- A transaction input with its (optional) construction-time hash cache. -/
structure HashedTxIn where
  txin : CTxIn
  cache : Option (List Nat)
deriving DecidableEq

/-- Mutable input construction: no cache, ever. -/
def mkMutableTxIn (i : CTxIn) : HashedTxIn := ⟨i, none⟩

/-- One `GetHash` request on an input. -/
def HashedTxIn.GetHash (H : List Nat → List Nat) (x : HashedTxIn) :
    List Nat × HashedTxIn :=
  match x.cache with
  | some c => (c, x)
  | none => (H (serTxIn x.txin), x)

/-- In-place update of the input's prevout index (as in the
`txin.prevout.n = 1` test). -/
def HashedTxIn.setPrevN (x : HashedTxIn) (n1 : Nat) : HashedTxIn :=
  ⟨⟨⟨x.txin.prevout.hash, n1⟩, x.txin.scriptSig, x.txin.nSequence⟩, x.cache⟩

/-! ### P2PKH address recovery (translated from src/bitcointx/wallet.py;
the structural script predicates are modelled from the spec since
`bitcointx/core/script.py` is not among the shown sources) -/

/-- Modelled from the spec: `CScript.is_witness_v0_keyhash` — 22 bytes,
OP_0 followed by a 20-byte push. -/
def is_witness_v0_keyhash (s : List Nat) : Bool :=
  s.length == 22 && s.getD 0 1 == 0 && s.getD 1 0 == 0x14

/-- Modelled from the spec: `CScript.is_witness_v0_nested_keyhash` — a
23-byte push of a witness-v0 keyhash program. -/
def is_witness_v0_nested_keyhash (s : List Nat) : Bool :=
  s.length == 23 && s.getD 0 0 == 0x16 && s.getD 1 1 == 0 && s.getD 2 0 == 0x14

/-- Address-recovery failure (`P2PKHCoinAddressError`). -/
inductive AddrError where
  | p2pkhError : AddrError
deriving DecidableEq

/-- `P2PKHCoinAddressCommon.from_pubkey` (src/bitcointx/wallet.py lines
304-324).  `Hash160` and full pubkey validity are external oracles; with
`accept_invalid` the validity check is skipped.  The result is the address
payload, the Hash160 of the pubkey bytes. -/
def P2PKH_from_pubkey (Hash160 : List Nat → List Nat)
    (is_fullyvalid : List Nat → Bool) (accept_invalid : Bool)
    (pubkey : List Nat) : Except AddrError (List Nat) :=
  if !accept_invalid && !(is_fullyvalid pubkey) then .error .p2pkhError
  else .ok (Hash160 pubkey)

/-- `P2PKHCoinAddressCommon.from_scriptPubKey` (src/bitcointx/wallet.py
lines 326-382).  With `accept_non_canonical_pushdata` the script is first
canonicalized; then witness-v0 keyhash, nested witness-v0 keyhash, and the
standard 25-byte P2PKH pattern are checked; with `accept_bare_checksig`
the 35-byte and 67-byte pubkey+OP_CHECKSIG forms yield
`from_pubkey(pubkey, accept_invalid=True)`. -/
def P2PKH_from_scriptPubKey (Hash160 : List Nat → List Nat)
    (is_fullyvalid : List Nat → Bool)
    (accept_non_canonical_pushdata accept_bare_checksig : Bool)
    (spk : List Nat) : Except AddrError (List Nat) :=
  let canon : Except AddrError (List Nat) :=
    if accept_non_canonical_pushdata then
      match canonicalizeScript spk with
      | some s2 => .ok s2
      | none => .error .p2pkhError
    else .ok spk
  match canon with
  | .error e => .error e
  | .ok s =>
    if is_witness_v0_keyhash s then .ok ((s.drop 2).take 20)
    else if is_witness_v0_nested_keyhash s then .ok ((s.drop 3).take 20)
    else if s.length == 25 && s.getD 0 0 == OP_DUP && s.getD 1 0 == OP_HASH160
        && s.getD 2 0 == 0x14 && s.getD 23 0 == OP_EQUALVERIFY
        && s.getD 24 0 == OP_CHECKSIG then
      .ok ((s.drop 3).take 20)
    else if accept_bare_checksig then
      if s.length == 35 && s.getD 0 0 == 0x21 && s.getD 34 0 == OP_CHECKSIG then
        P2PKH_from_pubkey Hash160 is_fullyvalid true ((s.drop 1).take 33)
      else if s.length == 67 && s.getD 0 0 == 0x41 && s.getD 66 0 == OP_CHECKSIG then
        P2PKH_from_pubkey Hash160 is_fullyvalid true ((s.drop 1).take 65)
      else .error .p2pkhError
    else .error .p2pkhError

/-! ### Base58-check data (translated from src/bitcointx/base58.py) -/

/-- The base58 digit alphabet (`B58_DIGITS`). -/
def B58_DIGITS : List Char :=
  ['1', '2', '3', '4', '5', '6', '7', '8', '9', 'A', 'B', 'C', 'D',
   'E', 'F', 'G', 'H', 'J', 'K', 'L', 'M', 'N', 'P', 'Q', 'R', 'S',
   'T', 'U', 'V', 'W', 'X', 'Y', 'Z', 'a', 'b', 'c', 'd', 'e', 'f',
   'g', 'h', 'i', 'j', 'k', 'm', 'n', 'o', 'p', 'q', 'r', 's', 't',
   'u', 'v', 'w', 'x', 'y', 'z']

/-- Index of a character in the base58 alphabet. -/
def b58CharVal (c : Char) : Option Nat :=
  B58_DIGITS.findIdx? fun d => d == c

/-- Accumulate the big-endian base58 value of a digit string; `none` on the
first invalid character (`InvalidBase58Error`). -/
def b58NumAux : Nat → List Char → Option Nat
  | acc, [] => some acc
  | acc, c :: r =>
    match b58CharVal c with
    | none => none
    | some d => b58NumAux (acc * 58 + d) r

/-- Minimal big-endian bytes of a natural number, as produced by
hexlifying a minimal hex string padded to even length; 0 becomes the
single byte 0x00. -/
def natBytesBE (n : Nat) : List Nat :=
  if n = 0 then [0] else (serN (Nat.log 256 n + 1) n).reverse

/-- Leading base58-zero digits (the character 1). -/
def countLeadingB58Zeros : List Char → Nat
  | [] => 0
  | c :: r => if c = '1' then countLeadingB58Zeros r + 1 else 0

/-- Failure modes of base58-check construction.  `typeErrorExtraArg` models
the `TypeError` a classmethod raises when called with an extra positional
argument. -/
inductive B58Err where
  | invalidChar : B58Err
  | dataTooShort : B58Err
  | checksumMismatch : B58Err
  | typeErrorExtraArg : B58Err
deriving DecidableEq

/-- `bitcointx.base58.decode` (src/bitcointx/base58.py lines 68-95): value
of the digit string as minimal big-endian bytes, re-padded with one zero
byte for every leading base58 zero of all characters but the last. -/
def b58decode (s : List Char) : Except B58Err (List Nat) :=
  if s.isEmpty then .ok []
  else
    match b58NumAux 0 s with
    | none => .error .invalidChar
    | some n =>
      .ok (List.replicate (countLeadingB58Zeros s.dropLast) 0 ++ natBytesBE n)

/-- `CBase58RawData.__new__` (src/bitcointx/base58.py lines 109-117), with
the double-SHA256 `bitcointx.core.Hash` abstract as `H`.  Decoded data
shorter than 4 bytes is `Base58Error` (data too short); a trailing 4-byte
checksum differing from the first 4 bytes of `H` of the preceding bytes is
`Base58ChecksumError`.  On checksum success the code executes
`return cls.from_bytes_with_prefix(data)` whose body (line 131) is
`return cls.from_bytes(cls, data)`: `from_bytes` is a two-parameter
classmethod, so the call carries one extra positional argument and raises
`TypeError`, modelled as `typeErrorExtraArg`. -/
def CBase58RawData_new (H : List Nat → List Nat) (s : List Char) :
    Except B58Err (List Nat) :=
  match b58decode s with
  | .error e => .error e
  | .ok k =>
    if k.length < 4 then .error .dataTooShort
    else if k.drop (k.length - 4) ≠ (H (k.take (k.length - 4))).take 4 then
      .error .checksumMismatch
    else .error .typeErrorExtraArg

/-- What the intended (documented) success path would return: the decoded
bytes with the 4-byte checksum removed. -/
def CBase58RawData_intended (H : List Nat → List Nat) (s : List Char) :
    Except B58Err (List Nat) :=
  match b58decode s with
  | .error e => .error e
  | .ok k =>
    if k.length < 4 then .error .dataTooShort
    else if k.drop (k.length - 4) ≠ (H (k.take (k.length - 4))).take 4 then
      .error .checksumMismatch
    else .ok (k.take (k.length - 4))

end Bitcointx

namespace Bitcointx

/-! ### Codec round-trip lemmas -/

theorem serN_length (w : Nat) : ∀ n : Nat, (serN w n).length = w := by
  induction w with
  | zero => intro n; rfl
  | succ k ih => intro n; simp [serN, ih]

theorem leVal_serN (w : Nat) : ∀ n : Nat, n < 256 ^ w → leVal (serN w n) = n := by
  induction w with
  | zero => intro n h; simp [serN, leVal]; omega
  | succ k ih =>
    intro n h
    have hd : n / 256 < 256 ^ k := by
      rw [Nat.div_lt_iff_lt_mul (by norm_num : 0 < 256)]
      calc n < 256 ^ (k + 1) := h
        _ = 256 ^ k * 256 := by ring
    simp [serN, leVal, ih (n / 256) hd]
    omega

theorem readN_append (w : Nat) (xs r : List Nat) (h : xs.length = w) :
    readN w (xs ++ r) = some (xs, r) := by
  subst h
  simp [readN, List.take_left, List.drop_left]

theorem readFixed_serN (w n : Nat) (h : n < 256 ^ w) (r : List Nat) :
    readFixed w (serN w n ++ r) = some (n, r) := by
  rw [readFixed, readN_append w (serN w n) r (serN_length w n)]
  simp [leVal_serN w n h]

theorem readCompact_serCompact (n : Nat) (h : n < 2 ^ 64) (r : List Nat) :
    readCompact (serCompact n ++ r) = some (n, r) := by
  by_cases h1 : n < 0xfd
  · simp [serCompact, h1, readCompact]
  · by_cases h2 : n < 0x10000
    · have : serCompact n ++ r = 0xfd :: (serN 2 n ++ r) := by
        simp [serCompact, h1, h2]
      rw [this, readCompact]
      rw [readFixed_serN 2 n (by norm_num; omega) r]
      simp [h1]
    · by_cases h3 : n < 0x100000000
      · have : serCompact n ++ r = 0xfe :: (serN 4 n ++ r) := by
          simp [serCompact, h1, h2, h3]
        rw [this, readCompact]
        rw [readFixed_serN 4 n (by norm_num; omega) r]
        simp [h2]
      · have : serCompact n ++ r = 0xff :: (serN 8 n ++ r) := by
          simp [serCompact, h1, h2, h3]
        rw [this, readCompact]
        rw [readFixed_serN 8 n (by norm_num; omega) r]
        simp [h3]

theorem readVarBytes_serVarBytes (b : List Nat) (h : b.length ≤ MAX_SIZE)
    (r : List Nat) : readVarBytes (serVarBytes b ++ r) = some (b, r) := by
  rw [serVarBytes, List.append_assoc, readVarBytes]
  rw [readCompact_serCompact b.length (by unfold MAX_SIZE at h; omega) (b ++ r)]
  have : ¬ MAX_SIZE < b.length := by omega
  simp [this, readN_append b.length b r rfl]

end Bitcointx

namespace Bitcointx

/-! ### Structure-level round-trip lemmas -/

theorem readOutPoint_ser (o : COutPoint) (hwf : wfOutPoint o) (r : List Nat) :
    readOutPoint (serOutPoint o ++ r) = some (o, r) := by
  obtain ⟨h32, hn⟩ := hwf
  rw [serOutPoint, List.append_assoc, readOutPoint,
    readN_append 32 o.hash (serN 4 o.n ++ r) h32, Option.some_bind,
    readFixed_serN 4 o.n (by norm_num; omega) r, Option.map_some']

theorem readTxIn_ser (i : CTxIn) (hwf : wfTxIn i) (r : List Nat) :
    readTxIn (serTxIn i ++ r) = some (i, r) := by
  obtain ⟨hop, hsc, hseq⟩ := hwf
  rw [serTxIn, List.append_assoc, List.append_assoc, readTxIn,
    readOutPoint_ser i.prevout hop, Option.some_bind,
    readVarBytes_serVarBytes i.scriptSig hsc, Option.some_bind,
    readFixed_serN 4 i.nSequence (by norm_num; omega) r, Option.map_some']

theorem readTxOut_ser (o : CTxOut) (hwf : wfTxOut o) (r : List Nat) :
    readTxOut (serTxOut o ++ r) = some (o, r) := by
  obtain ⟨hv, hsc⟩ := hwf
  rw [serTxOut, List.append_assoc, readTxOut,
    readFixed_serN 8 o.nValue (by norm_num; omega) (serVarBytes o.scriptPubKey ++ r),
    Option.some_bind, readVarBytes_serVarBytes o.scriptPubKey hsc, Option.map_some']

theorem readCount_flatten {α : Type} (p : List Nat → Option (α × List Nat))
    (f : α → List Nat) (xs : List α)
    (hp : ∀ x ∈ xs, ∀ r : List Nat, p (f x ++ r) = some (x, r)) (r : List Nat) :
    readCount p xs.length ((xs.map f).flatten ++ r) = some (xs, r) := by
  induction xs with
  | nil => simp [readCount]
  | cons a t ih =>
    simp only [List.map_cons, List.flatten_cons, List.length_cons, readCount,
      List.append_assoc]
    rw [hp a (List.mem_cons_self a t), Option.some_bind,
      ih (fun x hx r => hp x (List.mem_cons_of_mem a hx) r), Option.map_some']

theorem readVec_ser {α : Type} (p : List Nat → Option (α × List Nat))
    (f : α → List Nat) (xs : List α) (hlen : xs.length < 2 ^ 64)
    (hp : ∀ x ∈ xs, ∀ r : List Nat, p (f x ++ r) = some (x, r)) (r : List Nat) :
    readVec p (serVec f xs ++ r) = some (xs, r) := by
  rw [serVec, List.append_assoc, readVec,
    readCompact_serCompact xs.length hlen ((xs.map f).flatten ++ r),
    Option.some_bind]
  exact readCount_flatten p f xs hp r

theorem readWitStack_ser (s : List (List Nat)) (hwf : wfWitStack s)
    (r : List Nat) : readWitStack (serWitStack s ++ r) = some (s, r) := by
  exact readVec_ser readVarBytes serVarBytes s hwf.1
    (fun x hx r2 => readVarBytes_serVarBytes x (hwf.2 x hx) r2) r

theorem serCompact_head_ne_zero (n : Nat) (hn : n ≠ 0) :
    ∃ b t, serCompact n = b :: t ∧ b ≠ 0 := by
  by_cases h1 : n < 0xfd
  · exact ⟨n, [], by simp [serCompact, h1], hn⟩
  · by_cases h2 : n < 0x10000
    · exact ⟨0xfd, serN 2 n, by simp [serCompact, h1, h2], by norm_num⟩
    · by_cases h3 : n < 0x100000000
      · exact ⟨0xfe, serN 4 n, by simp [serCompact, h1, h2, h3], by norm_num⟩
      · exact ⟨0xff, serN 8 n, by simp [serCompact, h1, h2, h3], by norm_num⟩

theorem serVec_take_two_ne_marker {α : Type} (f : α → List Nat) (xs : List α)
    (hne : xs ≠ []) (r : List Nat) :
    (serVec f xs ++ r).take 2 ≠ [0, 1] := by
  obtain ⟨b, t, head, hb⟩ := serCompact_head_ne_zero xs.length
    (by simpa [List.length_eq_zero] using hne)
  rw [serVec, head]
  intro hcontra
  simp only [List.cons_append, List.append_assoc, List.take_succ_cons] at hcontra
  have : b = 0 := by
    have := congrArg (fun l => l.headD 0) hcontra
    simpa using this
  exact hb this

end Bitcointx

namespace Bitcointx

/-! ### Whole-transaction round-trip -/

theorem parseLegacyBody_ser (t : CTransaction)
    (hvinlen : t.vin.length < 2 ^ 64) (hvoutlen : t.vout.length < 2 ^ 64)
    (hwfin : ∀ i ∈ t.vin, wfTxIn i) (hwfout : ∀ o ∈ t.vout, wfTxOut o)
    (hlt : t.nLockTime < 2 ^ 32) (r : List Nat) :
    parseLegacyBody t.nVersion
      (serVec serTxIn t.vin ++ (serVec serTxOut t.vout ++ (serN 4 t.nLockTime ++ r))) =
    some (⟨t.nVersion, t.vin, t.vout, List.replicate t.vin.length [], t.nLockTime⟩, r) := by
  rw [parseLegacyBody,
    readVec_ser readTxIn serTxIn t.vin hvinlen
      (fun x hx r2 => readTxIn_ser x (hwfin x hx) r2), Option.some_bind,
    readVec_ser readTxOut serTxOut t.vout hvoutlen
      (fun x hx r2 => readTxOut_ser x (hwfout x hx) r2), Option.some_bind,
    readFixed_serN 4 t.nLockTime (by norm_num; omega) r, Option.map_some']

theorem parseWitnessBody_ser (t : CTransaction)
    (hvinlen : t.vin.length < 2 ^ 64) (hvoutlen : t.vout.length < 2 ^ 64)
    (hwfin : ∀ i ∈ t.vin, wfTxIn i) (hwfout : ∀ o ∈ t.vout, wfTxOut o)
    (hwfwit : ∀ s ∈ t.wit, wfWitStack s)
    (hwlen : t.wit.length = t.vin.length)
    (hW : t.hasWitness = true)
    (hlt : t.nLockTime < 2 ^ 32) (r : List Nat) :
    parseWitnessBody t.nVersion
      (serVec serTxIn t.vin ++ (serVec serTxOut t.vout ++
        ((t.wit.map serWitStack).flatten ++ (serN 4 t.nLockTime ++ r)))) =
    some (⟨t.nVersion, t.vin, t.vout, t.wit, t.nLockTime⟩, r) := by
  rw [parseWitnessBody,
    readVec_ser readTxIn serTxIn t.vin hvinlen
      (fun x hx r2 => readTxIn_ser x (hwfin x hx) r2), Option.some_bind,
    readVec_ser readTxOut serTxOut t.vout hvoutlen
      (fun x hx r2 => readTxOut_ser x (hwfout x hx) r2), Option.some_bind]
  rw [show (t.vin, serVec serTxOut t.vout ++
        ((t.wit.map serWitStack).flatten ++ (serN 4 t.nLockTime ++ r))).1.length
      = t.wit.length from hwlen.symm]
  rw [readCount_flatten readWitStack serWitStack t.wit
    (fun x hx r2 => readWitStack_ser x (hwfwit x hx) r2), Option.some_bind]
  have hall : (t.wit.all fun s => s.isEmpty) = false := by
    have := hW
    rw [CTransaction.hasWitness] at this
    cases hcase : (t.wit.all fun s => s.isEmpty) with
    | true => rw [hcase] at this; simp at this
    | false => rfl
  rw [if_neg (by simp [hall]),
    readFixed_serN 4 t.nLockTime (by norm_num; omega) r, Option.map_some']

/-- C1: deserializing a valid transaction's serialization yields the
transaction back, for both the witness and the non-witness form. -/
theorem deserialize_serialize (t : CTransaction) (h : t.wf) :
    deserializeTx (serTx t) = some t := by
  obtain ⟨hv, hlt, hvin, hwlen, hvinlen, hvoutlen, hwfin, hwfout, hwfwit⟩ := h
  by_cases hW : t.hasWitness
  · have hser : serTx t = serN 4 t.nVersion ++
        (0 :: 1 :: (serVec serTxIn t.vin ++ (serVec serTxOut t.vout ++
          ((t.wit.map serWitStack).flatten ++ (serN 4 t.nLockTime ++ []))))) := by
      simp [serTx, serTxWith, hW, List.append_assoc]
    rw [deserializeTx, parseTx, hser,
      readFixed_serN 4 t.nVersion (by norm_num; omega) _, Option.some_bind]
    rw [if_pos (by simp)]
    simp only [List.drop_succ_cons, List.drop_zero]
    rw [parseWitnessBody_ser t hvinlen hvoutlen hwfin hwfout hwfwit hwlen hW hlt []]
    rfl
  · have hWf : t.hasWitness = false := by
      cases hcase : t.hasWitness with
      | true => exact absurd hcase hW
      | false => rfl
    have hser : serTx t = serN 4 t.nVersion ++
        (serVec serTxIn t.vin ++ (serVec serTxOut t.vout ++
          (serN 4 t.nLockTime ++ []))) := by
      simp [serTx, serTxWith, hWf, List.append_assoc]
    rw [deserializeTx, parseTx, hser,
      readFixed_serN 4 t.nVersion (by norm_num; omega) _, Option.some_bind]
    rw [if_neg (serVec_take_two_ne_marker serTxIn t.vin hvin _)]
    rw [parseLegacyBody_ser t hvinlen hvoutlen hwfin hwfout hlt []]
    have hwit : t.wit = List.replicate t.vin.length [] := by
      rw [CTransaction.hasWitness] at hWf
      have hall : (t.wit.all fun s => s.isEmpty) = true := by
        cases hcase : (t.wit.all fun s => s.isEmpty) with
        | true => rfl
        | false => rw [hcase] at hWf; simp at hWf
      rw [List.all_eq_true] at hall
      rw [List.eq_replicate_iff]
      refine ⟨hwlen, fun b hb => ?_⟩
      have := hall b hb
      simpa [List.isEmpty_iff] using this
    rw [Option.map_some']
    congr 1
    cases t
    simp only at hwit ⊢
    rw [hwit]

end Bitcointx

namespace Bitcointx

/-! ### Coinbase and null-outpoint characterisation -/

/-- C7: a transaction is a coinbase iff it has exactly one input whose
prevout is null; an outpoint is null iff its hash is 32 zero bytes and its
index is 0xffffffff. -/
theorem is_coinbase_iff (t : CTransaction) :
    (t.is_coinbase = true ↔
      (t.vin.length = 1 ∧ ∀ i ∈ t.vin, i.prevout.is_null = true)) ∧
    (∀ o : COutPoint,
      o.is_null = true ↔ (o.hash = List.replicate 32 0 ∧ o.n = 0xffffffff)) := by
  constructor
  · cases hv : t.vin with
    | nil => simp [CTransaction.is_coinbase, hv]
    | cons i l =>
      cases l with
      | nil => simp [CTransaction.is_coinbase, hv]
      | cons j l2 => simp [CTransaction.is_coinbase, hv]
  · intro o
    simp [COutPoint.is_null]

/-! ### SINGLE-with-missing-output sighash quirk -/

/-- C3: for every hash oracle, transaction, and input index at or past the
output count, a SINGLE-base-type digest request returns the fixed 32-byte
sentinel 0x01 followed by 31 zero bytes, not a computed hash. -/
theorem sighash_single_out_of_range (H : List Nat → List Nat)
    (script : List Nat) (tx : CTransaction) (inIdx : Nat) (hashtype : Nat)
    (hbase : hashtype % 32 = SIGHASH_SINGLE) (hidx : tx.vout.length ≤ inIdx) :
    RawSignatureHash H script tx inIdx hashtype = HASH_ONE ∧
    HASH_ONE = 1 :: List.replicate 31 0 ∧ HASH_ONE.length = 32 := by
  refine ⟨?_, rfl, by simp [HASH_ONE]⟩
  rw [RawSignatureHash, if_pos ⟨hbase, hidx⟩]

/-- Witness for C3 at a concrete transaction with no outputs, index 0, hash
type SIGHASH_SINGLE, and the identity oracle. -/
theorem sighash_single_out_of_range_witness :
    RawSignatureHash (fun l => l) []
      ⟨1, [⟨⟨List.replicate 32 0, 0⟩, [], 0⟩], [], [[]], 0⟩ 0 3 = HASH_ONE ∧
    HASH_ONE = 1 :: List.replicate 31 0 ∧ HASH_ONE.length = 32 :=
  sighash_single_out_of_range (fun l => l) []
    ⟨1, [⟨⟨List.replicate 32 0, 0⟩, [], 0⟩], [], [[]], 0⟩ 0 3
    (by decide) (by decide)

/-! ### Transitive form conversion on construction -/

theorem construct_partsHaveForm (f : Form) (nv lt : Nat) (vin : List FTxIn)
    (vout : List FTxOut) (wit : FTxWitness) :
    (FTransaction.construct f nv vin vout wit lt).partsHaveForm f := by
  refine ⟨?_, ?_, rfl, ?_⟩
  · intro i hi
    simp only [FTransaction.construct, List.mem_map] at hi
    obtain ⟨i0, _, rfl⟩ := hi
    exact ⟨rfl, rfl⟩
  · intro o ho
    simp only [FTransaction.construct, List.mem_map] at ho
    obtain ⟨o0, _, rfl⟩ := ho
    rfl
  · intro w hw
    simp only [FTransaction.construct, FTxWitness.toForm, List.mem_map] at hw
    obtain ⟨w0, _, rfl⟩ := hw
    rfl

theorem liftTx_partsHaveForm (f : Form) (t : CTransaction) :
    (liftTx f t).partsHaveForm f := by
  refine ⟨?_, ?_, rfl, ?_⟩
  · intro i hi
    simp only [liftTx, List.mem_map] at hi
    obtain ⟨i0, _, rfl⟩ := hi
    exact ⟨rfl, rfl⟩
  · intro o ho
    simp only [liftTx, List.mem_map] at ho
    obtain ⟨o0, _, rfl⟩ := ho
    rfl
  · intro w hw
    simp only [liftTx, List.mem_map] at hw
    obtain ⟨w0, _, rfl⟩ := hw
    rfl

/-- C4: construction from parts transitively converts every nested part
(inputs, their outpoints, outputs, the witness and its per-input
witnesses) to the constructed form, whatever forms the parts had:
an immutable transaction built from parts has all parts satisfying
is_immutable, a mutable one has all parts satisfying is_mutable; and
deserializing with either form yields a transaction all of whose nested
parts have that form. -/
theorem construct_converts_parts (nv lt : Nat) (vin : List FTxIn)
    (vout : List FTxOut) (wit : FTxWitness) :
    (FTransaction.construct Form.immutF nv vin vout wit lt).partsImmutable ∧
    (FTransaction.construct Form.mutF nv vin vout wit lt).partsMutable ∧
    (∀ (f : Form) (b : List Nat) (tx : FTransaction),
      FTransaction.deserializeF f b = some tx → tx.partsHaveForm f) ∧
    (∀ tx : FTransaction, tx.partsHaveForm Form.immutF ↔ tx.partsImmutable) ∧
    (∀ tx : FTransaction, tx.partsHaveForm Form.mutF ↔ tx.partsMutable) := by
  have himm : ∀ tx : FTransaction,
      tx.partsHaveForm Form.immutF ↔ tx.partsImmutable := by
    intro tx
    unfold FTransaction.partsHaveForm FTransaction.partsImmutable
    simp [FTxIn.is_immutable, FOutPoint.is_immutable, FTxOut.is_immutable,
      FTxWitness.is_immutable, FTxInWitness.is_immutable]
  have hmut : ∀ tx : FTransaction,
      tx.partsHaveForm Form.mutF ↔ tx.partsMutable := by
    intro tx
    unfold FTransaction.partsHaveForm FTransaction.partsMutable
    simp [FTxIn.is_mutable, FOutPoint.is_mutable, FTxOut.is_mutable,
      FTxWitness.is_mutable, FTxInWitness.is_mutable]
  refine ⟨(himm _).mp (construct_partsHaveForm _ nv lt vin vout wit),
    (hmut _).mp (construct_partsHaveForm _ nv lt vin vout wit), ?_, himm, hmut⟩
  intro f b tx htx
  rw [FTransaction.deserializeF] at htx
  cases hd : deserializeTx b with
  | none => rw [hd] at htx; exact absurd htx (by simp)
  | some t0 =>
    rw [hd, Option.map_some'] at htx
    cases htx
    exact liftTx_partsHaveForm f t0

/-- Witness for C4: an immutable transaction built from mutable parts has
all-immutable parts, and a concrete mutable-form deserialization has
all-mutable parts. -/
theorem construct_converts_parts_witness :
    (FTransaction.construct Form.immutF 1
      [⟨Form.mutF, ⟨Form.mutF, List.replicate 32 0, 0⟩, [], 0⟩]
      [⟨Form.mutF, 1, []⟩]
      ⟨Form.mutF, [⟨Form.mutF, [[1]]⟩]⟩ 0).partsImmutable ∧
    (liftTx Form.mutF ⟨1, [⟨⟨List.replicate 32 0, 0⟩, [], 0⟩], [⟨0, []⟩],
      [[[1]]], 0⟩).partsHaveForm Form.mutF :=
  ⟨(construct_converts_parts 1 0
      [⟨Form.mutF, ⟨Form.mutF, List.replicate 32 0, 0⟩, [], 0⟩]
      [⟨Form.mutF, 1, []⟩] ⟨Form.mutF, [⟨Form.mutF, [[1]]⟩]⟩).1,
   (construct_converts_parts 1 0 [] [] ⟨Form.mutF, []⟩).2.2.1 Form.mutF
     (serTx ⟨1, [⟨⟨List.replicate 32 0, 0⟩, [], 0⟩], [⟨0, []⟩], [[[1]]], 0⟩)
     (liftTx Form.mutF ⟨1, [⟨⟨List.replicate 32 0, 0⟩, [], 0⟩], [⟨0, []⟩],
       [[[1]]], 0⟩)
     (by decide)⟩

end Bitcointx

namespace Bitcointx

set_option maxRecDepth 10000

/-- Witness for C1 at a concrete one-input witness-bearing transaction and
at the concrete 235-byte legacy transaction from the test suite. -/
theorem deserialize_serialize_witness :
    (⟨1, [⟨⟨List.replicate 32 0, 0⟩, [], 0⟩], [⟨0, []⟩], [[[1]]], 0⟩ :
      CTransaction).wf ∧
    deserializeTx (serTx ⟨1, [⟨⟨List.replicate 32 0, 0⟩, [], 0⟩], [⟨0, []⟩],
      [[[1]]], 0⟩) =
      some ⟨1, [⟨⟨List.replicate 32 0, 0⟩, [], 0⟩], [⟨0, []⟩], [[[1]]], 0⟩ ∧
    tx235.wf ∧ deserializeTx (serTx tx235) = some tx235 :=
  ⟨by decide,
   deserialize_serialize
     ⟨1, [⟨⟨List.replicate 32 0, 0⟩, [], 0⟩], [⟨0, []⟩], [[[1]]], 0⟩
     (by decide),
   by decide,
   deserialize_serialize tx235 (by decide)⟩

/-! ### Virtual size -/

theorem length_serVec {α : Type} (f : α → List Nat) (xs : List α) :
    (serVec f xs).length =
      (serCompact xs.length).length + ((xs.map fun x => (f x).length).sum) := by
  simp [serVec, Function.comp_def]

theorem serTxWith_of_no_witness (b b2 : Bool) (t : CTransaction)
    (h : t.hasWitness = false) : serTxWith b t = serTxWith b2 t := by
  simp [serTxWith, h]

/-- C2: the virtual size is the ceiling of (3 x legacy size + total size)/4;
for a transaction without witness data it equals the serialized size; and
the known 235-byte legacy transaction reaches exactly 9077 virtual bytes
after 260 copies of its first output are appended to its outputs. -/
theorem virtual_size_law (t : CTransaction) (hnw : t.hasWitness = false) :
    (∀ u : CTransaction,
      u.get_virtual_size =
        (3 * (serTxWith false u).length + (serTx u).length) ⌈/⌉ 4) ∧
    t.get_virtual_size = (serTx t).length ∧
    serTx tx235 = tx235Bytes ∧
    tx235Bytes.length = 235 ∧
    tx235.hasWitness = false ∧
    deserializeTx tx235Bytes = some tx235 ∧
    tx235Appended.vout = tx235.vout ++ List.replicate 260 tx235Out0 ∧
    tx235Appended.get_virtual_size = 9077 := by
  refine ⟨?_, ?_, by decide, by decide, by decide, by decide, rfl, ?_⟩
  · intro u
    rw [CTransaction.get_virtual_size, Nat.ceilDiv_eq_add_pred_div]
    congr 1
  · have heq : serTxWith false t = serTx t :=
      serTxWith_of_no_witness false true t hnw
    rw [CTransaction.get_virtual_size, heq]
    omega
  · have hA : tx235Appended.hasWitness = false := by decide
    have hL : (serTxWith false tx235Appended).length = 9077 := by
      rw [serTxWith, hA]
      simp only [Bool.and_false, if_false, List.append_nil, List.nil_append,
        List.length_append, serN_length]
      rw [length_serVec, length_serVec]
      have h2 : tx235Appended.vout = tx235.vout ++ List.replicate 260 tx235Out0 := rfl
      rw [h2, List.map_append, List.sum_append, List.map_replicate,
        List.sum_replicate]
      have h3 : (serTxOut tx235Out0).length = 34 := by decide
      have h4 : ((tx235.vout.map fun o => (serTxOut o).length).sum) = 77 := by decide
      have h5 : (tx235.vout ++ List.replicate 260 tx235Out0).length = 262 := by decide
      have h6 : (serCompact (262 : Nat)).length = 3 := by decide
      have h1a : (serCompact tx235Appended.vin.length).length = 1 := by decide
      have h1b : ((tx235Appended.vin.map fun x => (serTxIn x).length).sum) = 148 := by
        decide
      rw [h5, h3, h4, h6, h1a, h1b]
      simp [smul_eq_mul]
    have hT : serTx tx235Appended = serTxWith false tx235Appended :=
      serTxWith_of_no_witness true false _ hA
    rw [CTransaction.get_virtual_size, hT, hL]

/-- Witness for C2 at the concrete 235-byte legacy transaction. -/
theorem virtual_size_law_witness :
    (∀ u : CTransaction,
      u.get_virtual_size =
        (3 * (serTxWith false u).length + (serTx u).length) ⌈/⌉ 4) ∧
    tx235.get_virtual_size = (serTx tx235).length ∧
    serTx tx235 = tx235Bytes ∧
    tx235Bytes.length = 235 ∧
    tx235.hasWitness = false ∧
    deserializeTx tx235Bytes = some tx235 ∧
    tx235Appended.vout = tx235.vout ++ List.replicate 260 tx235Out0 ∧
    tx235Appended.get_virtual_size = 9077 :=
  virtual_size_law tx235 (by decide)

end Bitcointx

namespace Bitcointx

/-! ### Freeze/thaw as a deep, non-aliasing copy -/

theorem getD_snoc_len {α : Type} (l : List α) (x d : α) :
    (l ++ [x]).getD l.length d = x := by
  rw [List.getD_append_right l [x] d l.length (le_refl _)]
  simp

theorem getD_set_ne {α : Type} (l : List α) (i j : Nat) (x d : α)
    (hij : i ≠ j) : (l.set i x).getD j d = l.getD j d := by
  simp [List.getD_eq_getElem?_getD, List.getElem?_set_ne hij]

/-- C5: freezing a thawed copy reproduces the original's serialization
byte for byte; the thawed copy's sequence cells are fresh (never the
source's cells); and any overwrite of the copy's input or output sequence
leaves the original transaction, and hence its serialization, unchanged. -/
theorem freeze_thaw_roundtrip (h : Heap) (t : HTransaction)
    (hv : t.validIn h) (himm : t.form = Form.immutF) :
    serTx (readTxH (to_immutableH (to_mutableH h t).2 (to_mutableH h t).1).2
        (to_immutableH (to_mutableH h t).2 (to_mutableH h t).1).1) =
      serTx (readTxH h t) ∧
    (to_mutableH h t).1.vinRef ≠ t.vinRef ∧
    (to_mutableH h t).1.voutRef ≠ t.voutRef ∧
    (∀ xs : List CTxIn,
      readTxH (writeVins (to_mutableH h t).2 (to_mutableH h t).1.vinRef xs) t =
        readTxH h t) ∧
    (∀ ys : List CTxOut,
      readTxH (writeVouts (to_mutableH h t).2 (to_mutableH h t).1.voutRef ys) t =
        readTxH h t) := by
  obtain ⟨hv1, hv2⟩ := hv
  refine ⟨?_, ?_, ?_, ?_, ?_⟩
  · simp only [to_mutableH, to_immutableH, copyTxH, readTxH, getD_snoc_len]
  · simp only [to_mutableH, copyTxH]
    omega
  · simp only [to_mutableH, copyTxH]
    omega
  · intro xs
    simp only [to_mutableH, copyTxH, writeVins, readTxH]
    rw [getD_set_ne _ _ _ _ _ (by omega),
      List.getD_append _ _ _ _ hv1, List.getD_append _ _ _ _ hv2]
  · intro ys
    simp only [to_mutableH, copyTxH, writeVouts, readTxH]
    rw [getD_set_ne _ _ _ _ _ (by omega),
      List.getD_append _ _ _ _ hv1, List.getD_append _ _ _ _ hv2]

/-- Witness for C5 at a concrete one-cell heap and immutable transaction. -/
theorem freeze_thaw_roundtrip_witness :
    serTx (readTxH
        (to_immutableH
          (to_mutableH ⟨[[⟨⟨List.replicate 32 0, 0⟩, [], 0⟩]], [[⟨1, []⟩]]⟩
            ⟨Form.immutF, 1, 0, 0, [], 0⟩).2
          (to_mutableH ⟨[[⟨⟨List.replicate 32 0, 0⟩, [], 0⟩]], [[⟨1, []⟩]]⟩
            ⟨Form.immutF, 1, 0, 0, [], 0⟩).1).2
        (to_immutableH
          (to_mutableH ⟨[[⟨⟨List.replicate 32 0, 0⟩, [], 0⟩]], [[⟨1, []⟩]]⟩
            ⟨Form.immutF, 1, 0, 0, [], 0⟩).2
          (to_mutableH ⟨[[⟨⟨List.replicate 32 0, 0⟩, [], 0⟩]], [[⟨1, []⟩]]⟩
            ⟨Form.immutF, 1, 0, 0, [], 0⟩).1).1) =
      serTx (readTxH ⟨[[⟨⟨List.replicate 32 0, 0⟩, [], 0⟩]], [[⟨1, []⟩]]⟩
        ⟨Form.immutF, 1, 0, 0, [], 0⟩) ∧
    (to_mutableH ⟨[[⟨⟨List.replicate 32 0, 0⟩, [], 0⟩]], [[⟨1, []⟩]]⟩
      ⟨Form.immutF, 1, 0, 0, [], 0⟩).1.vinRef ≠
      (⟨Form.immutF, 1, 0, 0, [], 0⟩ : HTransaction).vinRef ∧
    (to_mutableH ⟨[[⟨⟨List.replicate 32 0, 0⟩, [], 0⟩]], [[⟨1, []⟩]]⟩
      ⟨Form.immutF, 1, 0, 0, [], 0⟩).1.voutRef ≠
      (⟨Form.immutF, 1, 0, 0, [], 0⟩ : HTransaction).voutRef ∧
    (∀ xs : List CTxIn,
      readTxH (writeVins
          (to_mutableH ⟨[[⟨⟨List.replicate 32 0, 0⟩, [], 0⟩]], [[⟨1, []⟩]]⟩
            ⟨Form.immutF, 1, 0, 0, [], 0⟩).2
          (to_mutableH ⟨[[⟨⟨List.replicate 32 0, 0⟩, [], 0⟩]], [[⟨1, []⟩]]⟩
            ⟨Form.immutF, 1, 0, 0, [], 0⟩).1.vinRef xs)
        ⟨Form.immutF, 1, 0, 0, [], 0⟩ =
      readTxH ⟨[[⟨⟨List.replicate 32 0, 0⟩, [], 0⟩]], [[⟨1, []⟩]]⟩
        ⟨Form.immutF, 1, 0, 0, [], 0⟩) ∧
    (∀ ys : List CTxOut,
      readTxH (writeVouts
          (to_mutableH ⟨[[⟨⟨List.replicate 32 0, 0⟩, [], 0⟩]], [[⟨1, []⟩]]⟩
            ⟨Form.immutF, 1, 0, 0, [], 0⟩).2
          (to_mutableH ⟨[[⟨⟨List.replicate 32 0, 0⟩, [], 0⟩]], [[⟨1, []⟩]]⟩
            ⟨Form.immutF, 1, 0, 0, [], 0⟩).1.voutRef ys)
        ⟨Form.immutF, 1, 0, 0, [], 0⟩ =
      readTxH ⟨[[⟨⟨List.replicate 32 0, 0⟩, [], 0⟩]], [[⟨1, []⟩]]⟩
        ⟨Form.immutF, 1, 0, 0, [], 0⟩) :=
  freeze_thaw_roundtrip ⟨[[⟨⟨List.replicate 32 0, 0⟩, [], 0⟩]], [[⟨1, []⟩]]⟩
    ⟨Form.immutF, 1, 0, 0, [], 0⟩ (by decide) (by decide)

/-! ### Hash caching -/

theorem nthHashOutPoint_immutable (H : List Nat → List Nat) (o : COutPoint) :
    ∀ k : Nat, nthHashOutPoint H (mkImmutableOutPoint H o) k = H (serOutPoint o) := by
  intro k
  induction k with
  | zero => rfl
  | succ n ih =>
    simpa [nthHashOutPoint, mkImmutableOutPoint, HashedOutPoint.GetHash] using ih

/-- C6: a mutable structure's hash is recomputed from its current fields on
every request and never cached, so after a field mutation that changes the
digest the recomputed hash differs from the pre-mutation value (shown for
an outpoint's index and hash fields and for an input's prevout index); an
immutable structure's hash is computed once and every repeated request
returns the same value. -/
theorem hash_caching (H : List Nat → List Nat) (o : COutPoint) (i : CTxIn)
    (n1 n2 : Nat) (hs : List Nat)
    (hne1 : H (serOutPoint ⟨o.hash, n1⟩) ≠ H (serOutPoint o))
    (hne2 : H (serOutPoint ⟨hs, o.n⟩) ≠ H (serOutPoint o))
    (hne3 : H (serTxIn ⟨⟨i.prevout.hash, n2⟩, i.scriptSig, i.nSequence⟩) ≠
      H (serTxIn i)) :
    ((((mkMutableOutPoint o).GetHash H).2.setN n1).GetHash H).1 ≠
      ((mkMutableOutPoint o).GetHash H).1 ∧
    ((((mkMutableOutPoint o).GetHash H).2.setHashBytes hs).GetHash H).1 ≠
      ((mkMutableOutPoint o).GetHash H).1 ∧
    ((((mkMutableTxIn i).GetHash H).2.setPrevN n2).GetHash H).1 ≠
      ((mkMutableTxIn i).GetHash H).1 ∧
    (∀ x : HashedOutPoint, x.cache = none →
      (x.GetHash H).1 = H (serOutPoint x.op) ∧ (x.GetHash H).2 = x) ∧
    (∀ k m : Nat,
      nthHashOutPoint H (mkImmutableOutPoint H o) k =
        nthHashOutPoint H (mkImmutableOutPoint H o) m) := by
  refine ⟨hne1, hne2, hne3, ?_, ?_⟩
  · intro x hx
    simp [HashedOutPoint.GetHash, hx]
  · intro k m
    rw [nthHashOutPoint_immutable, nthHashOutPoint_immutable]

/-- Witness for C6 with the identity oracle, a zero outpoint and a default
input, mutated to index 1. -/
theorem hash_caching_witness :
    ((((mkMutableOutPoint ⟨List.replicate 32 0, 0⟩).GetHash (fun l => l)).2.setN
        1).GetHash (fun l => l)).1 ≠
      ((mkMutableOutPoint ⟨List.replicate 32 0, 0⟩).GetHash (fun l => l)).1 ∧
    ((((mkMutableOutPoint ⟨List.replicate 32 0, 0⟩).GetHash
        (fun l => l)).2.setHashBytes (List.replicate 32 1)).GetHash
        (fun l => l)).1 ≠
      ((mkMutableOutPoint ⟨List.replicate 32 0, 0⟩).GetHash (fun l => l)).1 ∧
    ((((mkMutableTxIn ⟨⟨List.replicate 32 0, 0⟩, [], 4294967295⟩).GetHash
        (fun l => l)).2.setPrevN 1).GetHash (fun l => l)).1 ≠
      ((mkMutableTxIn ⟨⟨List.replicate 32 0, 0⟩, [], 4294967295⟩).GetHash
        (fun l => l)).1 ∧
    (∀ x : HashedOutPoint, x.cache = none →
      (x.GetHash (fun l => l)).1 = serOutPoint x.op ∧
      (x.GetHash (fun l => l)).2 = x) ∧
    (∀ k m : Nat,
      nthHashOutPoint (fun l => l)
          (mkImmutableOutPoint (fun l => l) ⟨List.replicate 32 0, 0⟩) k =
        nthHashOutPoint (fun l => l)
          (mkImmutableOutPoint (fun l => l) ⟨List.replicate 32 0, 0⟩) m) :=
  hash_caching (fun l => l) ⟨List.replicate 32 0, 0⟩
    ⟨⟨List.replicate 32 0, 0⟩, [], 4294967295⟩ 1 1 (List.replicate 32 1)
    (by decide) (by decide) (by decide)

end Bitcointx

namespace Bitcointx

/-! ### Script canonicalization on the address-recovery shapes -/

theorem tokenizeFuel_nil (fuel : Nat) : tokenizeFuel fuel [] = some [] := by
  cases fuel <;> rfl

theorem tokenizeFuel_push_op (pk : List Nat) (b : Nat) (hlen : pk.length ≤ 75)
    (hb : 75 < b) (hb1 : b ≠ OP_PUSHDATA1) (hb2 : b ≠ OP_PUSHDATA2)
    (hb4 : b ≠ OP_PUSHDATA4) :
    tokenizeFuel (pk.length + 2) (pk.length :: (pk ++ [b])) =
      some [ScriptTok.pushTok pk, ScriptTok.opTok b] := by
  rw [show pk.length + 2 = Nat.succ (pk.length + 1) from rfl]
  rw [tokenizeFuel.eq_3]
  rw [if_pos hlen]
  rw [if_neg (by simp)]
  rw [List.take_left' rfl, List.drop_left' rfl]
  rw [show pk.length + 1 = Nat.succ pk.length from rfl]
  rw [tokenizeFuel.eq_3]
  rw [if_neg (by omega), if_neg hb1, if_neg hb2, if_neg hb4]
  rw [tokenizeFuel_nil]
  rfl

theorem canonicalize_push_op (pk : List Nat) (b : Nat) (hlen : pk.length ≤ 75)
    (hb : 75 < b) (hb1 : b ≠ OP_PUSHDATA1) (hb2 : b ≠ OP_PUSHDATA2)
    (hb4 : b ≠ OP_PUSHDATA4) :
    canonicalizeScript (pk.length :: (pk ++ [b])) =
      some (pk.length :: (pk ++ [b])) := by
  rw [canonicalizeScript, tokenizeScript,
    show (pk.length :: (pk ++ [b])).length = pk.length + 2 by simp,
    tokenizeFuel_push_op pk b hlen hb hb1 hb2 hb4, Option.map_some']
  have h76 : pk.length < 76 := by omega
  simp [serToks, serTok, encodePushData, h76]

theorem getD_cons_append_last (a : Nat) (pk : List Nat) (b : Nat) :
    (a :: (pk ++ [b])).getD (pk.length + 1) 0 = b := by
  rw [List.getD_eq_getElem?_getD]
  have h : (a :: (pk ++ [b]))[pk.length + 1]? = [b][0]? := by
    rw [show a :: (pk ++ [b]) = (a :: pk) ++ [b] by simp]
    rw [List.getElem?_append_right (by simp)]
    simp
  rw [h]
  rfl

end Bitcointx

namespace Bitcointx

/-! ### Bare-checksig and witness-script P2PKH address recovery -/

theorem bare33_eval (Hash160 : List Nat → List Nat)
    (is_fullyvalid : List Nat → Bool) (pk : List Nat) (h : pk.length = 33) :
    P2PKH_from_scriptPubKey Hash160 is_fullyvalid true true
      (0x21 :: (pk ++ [OP_CHECKSIG])) = Except.ok (Hash160 pk) := by
  have hcan : canonicalizeScript (0x21 :: (pk ++ [OP_CHECKSIG])) =
      some (0x21 :: (pk ++ [OP_CHECKSIG])) := by
    have hc := canonicalize_push_op pk OP_CHECKSIG (by omega) (by decide)
      (by decide) (by decide) (by decide)
    rwa [h] at hc
  have hsl : (0x21 :: (pk ++ [OP_CHECKSIG])).length = 35 := by simp [h]
  have h1 : is_witness_v0_keyhash (0x21 :: (pk ++ [OP_CHECKSIG])) = false := by
    simp [is_witness_v0_keyhash, hsl]
  have h2 : is_witness_v0_nested_keyhash (0x21 :: (pk ++ [OP_CHECKSIG])) = false := by
    simp [is_witness_v0_nested_keyhash, hsl]
  have hgd : (0x21 :: (pk ++ [OP_CHECKSIG])).getD 34 0 = OP_CHECKSIG := by
    rw [show (34 : Nat) = pk.length + 1 by omega]
    exact getD_cons_append_last 0x21 pk OP_CHECKSIG
  have htk : ((0x21 :: (pk ++ [OP_CHECKSIG])).drop 1).take 33 = pk := by
    rw [List.drop_one, List.tail_cons, ← h, List.take_left]
  simp only [P2PKH_from_scriptPubKey, hcan, if_true, h1, h2, hsl, hgd, htk,
    Bool.false_eq_true, if_false, P2PKH_from_pubkey, Bool.not_true,
    Bool.false_and]
  simp

theorem bare65_eval (Hash160 : List Nat → List Nat)
    (is_fullyvalid : List Nat → Bool) (pk : List Nat) (h : pk.length = 65) :
    P2PKH_from_scriptPubKey Hash160 is_fullyvalid true true
      (0x41 :: (pk ++ [OP_CHECKSIG])) = Except.ok (Hash160 pk) := by
  have hcan : canonicalizeScript (0x41 :: (pk ++ [OP_CHECKSIG])) =
      some (0x41 :: (pk ++ [OP_CHECKSIG])) := by
    have hc := canonicalize_push_op pk OP_CHECKSIG (by omega) (by decide)
      (by decide) (by decide) (by decide)
    rwa [h] at hc
  have hsl : (0x41 :: (pk ++ [OP_CHECKSIG])).length = 67 := by simp [h]
  have h1 : is_witness_v0_keyhash (0x41 :: (pk ++ [OP_CHECKSIG])) = false := by
    simp [is_witness_v0_keyhash, hsl]
  have h2 : is_witness_v0_nested_keyhash (0x41 :: (pk ++ [OP_CHECKSIG])) = false := by
    simp [is_witness_v0_nested_keyhash, hsl]
  have hgd : (0x41 :: (pk ++ [OP_CHECKSIG])).getD 66 0 = OP_CHECKSIG := by
    rw [show (66 : Nat) = pk.length + 1 by omega]
    exact getD_cons_append_last 0x41 pk OP_CHECKSIG
  have htk : ((0x41 :: (pk ++ [OP_CHECKSIG])).drop 1).take 65 = pk := by
    rw [List.drop_one, List.tail_cons, ← h, List.take_left]
  simp only [P2PKH_from_scriptPubKey, hcan, if_true, h1, h2, hsl, hgd, htk,
    Bool.false_eq_true, if_false, P2PKH_from_pubkey, Bool.not_true,
    Bool.false_and]
  simp

/-- C8: with the default flags (accept_non_canonical_pushdata and
accept_bare_checksig both enabled), P2PKH address recovery accepts every
35-byte script 0x21 + 33 pubkey bytes + OP_CHECKSIG and every 67-byte
script 0x41 + 65 pubkey bytes + OP_CHECKSIG, returning the Hash160 of the
embedded pubkey bytes as the address payload; with accept_invalid the
pubkey validity oracle is never consulted (the theorem holds for every
validity oracle, and from_pubkey with accept_invalid succeeds for every
pubkey). -/
theorem bare_checksig_accepted (Hash160 : List Nat → List Nat)
    (is_fullyvalid : List Nat → Bool) (pk33 pk65 : List Nat)
    (h33 : pk33.length = 33) (h65 : pk65.length = 65) :
    P2PKH_from_scriptPubKey Hash160 is_fullyvalid true true
      (0x21 :: (pk33 ++ [OP_CHECKSIG])) = Except.ok (Hash160 pk33) ∧
    P2PKH_from_scriptPubKey Hash160 is_fullyvalid true true
      (0x41 :: (pk65 ++ [OP_CHECKSIG])) = Except.ok (Hash160 pk65) ∧
    ∀ pk : List Nat,
      P2PKH_from_pubkey Hash160 is_fullyvalid true pk =
        Except.ok (Hash160 pk) := by
  refine ⟨bare33_eval Hash160 is_fullyvalid pk33 h33,
    bare65_eval Hash160 is_fullyvalid pk65 h65, ?_⟩
  intro pk
  simp [P2PKH_from_pubkey]

/-- Witness for C8 with concrete (invalid-as-pubkey) byte strings and a
validity oracle that rejects everything, showing no validation happens. -/
theorem bare_checksig_accepted_witness :
    P2PKH_from_scriptPubKey (fun l => l.take 20) (fun _ => false) true true
      (0x21 :: (List.replicate 33 7 ++ [OP_CHECKSIG])) =
      Except.ok ((fun l => l.take 20) (List.replicate 33 7)) ∧
    P2PKH_from_scriptPubKey (fun l => l.take 20) (fun _ => false) true true
      (0x41 :: (List.replicate 65 9 ++ [OP_CHECKSIG])) =
      Except.ok ((fun l => l.take 20) (List.replicate 65 9)) ∧
    ∀ pk : List Nat,
      P2PKH_from_pubkey (fun l => l.take 20) (fun _ => false) true pk =
        Except.ok ((fun l => l.take 20) pk) :=
  bare_checksig_accepted (fun l => l.take 20) (fun _ => false)
    (List.replicate 33 7) (List.replicate 65 9) (by decide) (by decide)

theorem tokenize_witness_keyhash (kh : List Nat) (h : kh.length = 20) :
    tokenizeScript (0 :: 0x14 :: kh) =
      some [ScriptTok.pushTok [], ScriptTok.pushTok kh] := by
  rw [tokenizeScript]
  rw [show (0 :: 0x14 :: kh).length = Nat.succ (Nat.succ kh.length) by simp]
  rw [tokenizeFuel.eq_3]
  rw [if_pos (by omega)]
  rw [if_neg (by omega)]
  simp only [List.take_zero, List.drop_zero]
  rw [tokenizeFuel.eq_3]
  rw [if_pos (by norm_num)]
  rw [if_neg (by omega)]
  rw [show (0x14 : Nat) = kh.length from h.symm, List.take_length,
    List.drop_length, tokenizeFuel_nil]
  rfl

theorem canonicalize_witness_keyhash (kh : List Nat) (h : kh.length = 20) :
    canonicalizeScript (0 :: 0x14 :: kh) = some (0 :: 0x14 :: kh) := by
  rw [canonicalizeScript, tokenize_witness_keyhash kh h, Option.map_some']
  simp [serToks, serTok, encodePushData, h]

theorem tokenize_nested_keyhash (kh : List Nat) (h : kh.length = 20) :
    tokenizeScript (0x16 :: (0 :: 0x14 :: kh)) =
      some [ScriptTok.pushTok (0 :: 0x14 :: kh)] := by
  rw [tokenizeScript]
  rw [show (0x16 :: (0 :: 0x14 :: kh)).length =
    Nat.succ (0 :: 0x14 :: kh).length by simp]
  rw [tokenizeFuel.eq_3]
  rw [if_pos (by norm_num)]
  rw [if_neg (by simp [h])]
  rw [show (0x16 : Nat) = (0 :: 0x14 :: kh).length by simp [h]]
  rw [List.take_length, List.drop_length, tokenizeFuel_nil]
  rfl

theorem canonicalize_nested_keyhash (kh : List Nat) (h : kh.length = 20) :
    canonicalizeScript (0x16 :: (0 :: 0x14 :: kh)) =
      some (0x16 :: (0 :: 0x14 :: kh)) := by
  rw [canonicalizeScript, tokenize_nested_keyhash kh h, Option.map_some']
  simp [serToks, serTok, encodePushData, h]

/-- C10: P2PKH address recovery does not reject witness scripts: a
witness-v0 keyhash scriptPubKey (OP_0, 20-byte push) yields the address
payload taken from bytes 2..22, and a nested (P2SH-style scriptSig form)
witness-v0 keyhash script yields bytes 3..23, instead of a
P2PKHCoinAddressError. -/
theorem witness_keyhash_not_rejected (Hash160 : List Nat → List Nat)
    (is_fullyvalid : List Nat → Bool) (kh : List Nat) (h : kh.length = 20) :
    P2PKH_from_scriptPubKey Hash160 is_fullyvalid true true
      (0 :: 0x14 :: kh) = Except.ok kh ∧
    ((0 :: 0x14 :: kh).drop 2).take 20 = kh ∧
    P2PKH_from_scriptPubKey Hash160 is_fullyvalid true true
      (0x16 :: (0 :: 0x14 :: kh)) = Except.ok kh ∧
    ((0x16 :: (0 :: 0x14 :: kh)).drop 3).take 20 = kh := by
  have htk : kh.take 20 = kh := by rw [← h, List.take_length]
  have hwk : is_witness_v0_keyhash (0 :: 0x14 :: kh) = true := by
    simp [is_witness_v0_keyhash, h, List.getD]
  have hwk2 : is_witness_v0_keyhash (0x16 :: (0 :: 0x14 :: kh)) = false := by
    simp [is_witness_v0_keyhash, h, List.getD]
  have hnk : is_witness_v0_nested_keyhash (0x16 :: (0 :: 0x14 :: kh)) = true := by
    simp [is_witness_v0_nested_keyhash, h, List.getD]
  refine ⟨?_, by simpa using htk, ?_, by simpa using htk⟩
  · simp only [P2PKH_from_scriptPubKey, canonicalize_witness_keyhash kh h,
      if_true, hwk]
    simp [htk]
  · simp only [P2PKH_from_scriptPubKey, canonicalize_nested_keyhash kh h,
      if_true, hwk2, hnk, Bool.false_eq_true, if_false]
    simp [htk]

/-- Witness for C10 at a concrete 20-byte keyhash. -/
theorem witness_keyhash_not_rejected_witness :
    P2PKH_from_scriptPubKey (fun l => l.take 20) (fun _ => false) true true
      (0 :: 0x14 :: List.replicate 20 5) = Except.ok (List.replicate 20 5) ∧
    ((0 :: 0x14 :: List.replicate 20 5).drop 2).take 20 = List.replicate 20 5 ∧
    P2PKH_from_scriptPubKey (fun l => l.take 20) (fun _ => false) true true
      (0x16 :: (0 :: 0x14 :: List.replicate 20 5)) =
      Except.ok (List.replicate 20 5) ∧
    ((0x16 :: (0 :: 0x14 :: List.replicate 20 5)).drop 3).take 20 =
      List.replicate 20 5 :=
  witness_keyhash_not_rejected (fun l => l.take 20) (fun _ => false)
    (List.replicate 20 5) (by decide)

end Bitcointx

namespace Bitcointx

/-! ### Base58-check construction -/

/-- C9 (code bug): for a base58 string whose decode succeeds, decoded data
shorter than 4 bytes raises Base58Error; Base58ChecksumError is raised iff
the last 4 decoded bytes differ from the first 4 bytes of the hash of the
preceding bytes; but on checksum success the construction does NOT return
the decoded bytes with the checksum removed — `from_bytes_with_prefix`
calls `cls.from_bytes(cls, data)`, passing the class twice to a
two-parameter classmethod, so every checksum-valid construction raises
TypeError.  The intended (documented) behaviour would return the data. -/
theorem base58_checksum_behaviour (H : List Nat → List Nat) (s : List Char)
    (k : List Nat) (hdec : b58decode s = Except.ok k) :
    (k.length < 4 → CBase58RawData_new H s = Except.error B58Err.dataTooShort) ∧
    (4 ≤ k.length →
      (CBase58RawData_new H s = Except.error B58Err.checksumMismatch ↔
        k.drop (k.length - 4) ≠ (H (k.take (k.length - 4))).take 4)) ∧
    (4 ≤ k.length → k.drop (k.length - 4) = (H (k.take (k.length - 4))).take 4 →
      CBase58RawData_new H s = Except.error B58Err.typeErrorExtraArg ∧
      CBase58RawData_new H s ≠ Except.ok (k.take (k.length - 4)) ∧
      CBase58RawData_intended H s = Except.ok (k.take (k.length - 4))) := by
  refine ⟨?_, ?_, ?_⟩
  · intro hshort
    rw [CBase58RawData_new, hdec]
    simp [hshort]
  · intro hlong
    rw [CBase58RawData_new, hdec]
    simp only [if_neg (by omega : ¬ k.length < 4)]
    by_cases hck : k.drop (k.length - 4) = (H (k.take (k.length - 4))).take 4
    · simp [hck]
    · simp [hck]
  · intro hlong hck
    have hge : ¬ k.length < 4 := by omega
    refine ⟨?_, ?_, ?_⟩
    · rw [CBase58RawData_new, hdec]
      simp [hge, hck]
    · rw [CBase58RawData_new, hdec]
      simp only [hge, if_false, hck]
      intro hcon
      simp at hcon
    · rw [CBase58RawData_intended, hdec]
      simp [hge, hck]

/-- Witness for C9: the all-ones string 11111 decodes to five zero bytes;
with an oracle hashing everything to zeros its checksum validates, yet
construction yields the TypeError outcome instead of the data byte. -/
theorem base58_checksum_behaviour_witness :
    CBase58RawData_new (fun _ => List.replicate 32 0)
      ['1', '1', '1', '1', '1'] = Except.error B58Err.typeErrorExtraArg ∧
    CBase58RawData_new (fun _ => List.replicate 32 0)
      ['1', '1', '1', '1', '1'] ≠ Except.ok [0] ∧
    CBase58RawData_intended (fun _ => List.replicate 32 0)
      ['1', '1', '1', '1', '1'] = Except.ok [0] :=
  (base58_checksum_behaviour (fun _ => List.replicate 32 0)
    ['1', '1', '1', '1', '1'] [0, 0, 0, 0, 0] rfl).2.2
    (by decide) (by decide)

end Bitcointx
